import Mathlib

/-!
# Verification of the moltbook adaptive budget & rotation controller

Shallow embedding of `adaptive-budget.py` and `rotation-tuner.py`.
Monetary values and derived metrics are modelled as exact rationals (`ℚ`);
The Python decimal `round(x, d)` is modelled as `roundTo d` below
(round-half-up on rationals; no claim in this development hinges on the
tie-breaking direction of the rounding).
-/

namespace Moltbook

/-- A parsed session-history record.  Both scripts parse lines with the same
regular expression; `adaptive-budget.py` keeps only `mode`, `cost`, `commits`
while `rotation-tuner.py` additionally keeps `session` and `dur_s`.  We use one
record type for both; the budget code never reads the extra fields. -/
structure Session where
  mode : Char
  session : ℕ
  dur_s : ℕ
  cost : ℚ
  commits : ℕ
deriving DecidableEq, Repr

/-- Python `round(x, d)`, on rationals: round `x` to `d` decimal places. -/
def roundTo (d : ℕ) (x : ℚ) : ℚ := (round (x * 10 ^ d) : ℤ) / 10 ^ d

/-- The `BASE` dict of `adaptive-budget.py`, as accessed via `BASE.get(mode, 10.0)`. -/
def BASE (m : Char) : ℚ :=
  if m = 'B' then 10 else if m = 'R' then 5 else if m = 'E' then 5 else 10

/-- The `CAPS` dict of `adaptive-budget.py`, as accessed via
`CAPS.get(mode, (3.0, 12.0))`: hard (floor, ceiling) per mode. -/
def CAPS (m : Char) : ℚ × ℚ :=
  if m = 'B' then (5, 12) else if m = 'R' then (3, 7)
  else if m = 'E' then (2, 5) else (3, 12)

/-- Filter `[s for s in sessions if s["mode"] == mode]`. -/
def typedSessions (mode : Char) (sessions : List Session) : List Session :=
  sessions.filter (fun s => s.mode = mode)

/-- Window `typed[-10:]`: the last (up to) 10 records. -/
def recentWindow (typed : List Session) : List Session :=
  typed.drop (typed.length - 10)

/-- Total `sum(s["cost"] for s in l)`. -/
def costSum (l : List Session) : ℚ := (l.map (fun s => s.cost)).sum

/-- Total `sum(s["commits"] for s in l)`. -/
def commitsSum (l : List Session) : ℕ := (l.map (fun s => s.commits)).sum

/-- Total `sum(s["dur_s"] for s in l)`. -/
def durSum (l : List Session) : ℕ := (l.map (fun s => s.dur_s)).sum

/-- The `avg_cost` local of `compute_budget`: mean cost over a window. -/
def avgCost (l : List Session) : ℚ := costSum l / l.length

/-- The `cost_per_commit` local of `compute_budget`:
`sum(cost) / max(total_commits, 1)`. -/
def costPerCommit (l : List Session) : ℚ :=
  costSum l / (max (commitsSum l) 1 : ℕ)

/-- The `budget` local of `compute_budget` before clamping and rounding,
computed from the recent window: commit-producing modes (`B`, `R`) bracket
cost-per-commit into four tiers on the base and damp to at most the base when
average cost is under half the base; other modes are judged on average cost
alone. -/
def rawBudget (mode : Char) (recent : List Session) : ℚ :=
  let base := BASE mode
  let avg_cost := avgCost recent
  let cost_per_commit := costPerCommit recent
  if mode = 'B' ∨ mode = 'R' then
    let b :=
      if cost_per_commit < 6/10 then base * (13/10)
      else if cost_per_commit < 1 then base * (23/20)
      else if cost_per_commit < 2 then base
      else base * (3/4)
    if avg_cost < base * (1/2) then min b base else b
  else
    if avg_cost < base * (6/10) then base * (9/10)
    else if avg_cost > base * (9/10) then base * (11/10)
    else base

/-- Function `compute_budget(mode, sessions)` of `adaptive-budget.py`: insufficient
data (fewer than 3 records of the mode) returns the base; otherwise the raw
budget of the last-10 window is clamped to the caps and rounded to two
decimals. -/
def compute_budget (mode : Char) (sessions : List Session) : ℚ :=
  let base := BASE mode
  let lo := (CAPS mode).1
  let hi := (CAPS mode).2
  let typed := typedSessions mode sessions
  if typed.length < 3 then base  -- not enough data
  else roundTo 2 (min hi (max lo (rawBudget mode (recentWindow typed))))

/-! ## Line parsing

Both scripts match each stripped, non-empty line against the same regular
expression (`re.match`, i.e. anchored at the start, trailing text ignored):

`\S+ mode=(\w) s=(\d+) dur=~?(\d+)m(\d+)?s? cost=\$([0-9.]+) build=(\d+|[\(]none[\)])`

Every character class in it is disjoint from the literal that follows it, so
greedy left-to-right matching with no backtracking is equivalent; `matchLine`
below implements exactly that. -/

/-- Match a literal character sequence, returning the remainder. -/
def litP : List Char → List Char → Option (List Char)
  | [], cs => some cs
  | p :: ps, c :: cs => if c = p then litP ps cs else none
  | _ :: _, [] => none

/-- Match one or more characters satisfying `p` (greedy), returning them and
the remainder. -/
def takeWhile1P (p : Char → Bool) (cs : List Char) : Option (List Char × List Char) :=
  let taken := cs.takeWhile p
  if taken.isEmpty then none else some (taken, cs.drop taken.length)

/-- Decimal digit string to a natural number (`int(...)` of Python on the
digit-only capture groups). -/
def digitsToNat (ds : List Char) : ℕ :=
  ds.foldl (fun a c => 10 * a + (c.toNat - 48)) 0

/-- Python `float(...)` applied to a `[0-9.]+` capture: digits with at most
one dot, at least one digit (`"1."`, `".5"` are valid).  A capture on which
`float` would raise `ValueError` (no digit, or several dots) is modelled as a
non-match; no claim exercises that case. -/
def parseMoney (cs : List Char) : Option ℚ :=
  if cs.all (fun c => c.isDigit) ∧ ¬ cs.isEmpty then
    some (digitsToNat cs)
  else
    match cs.splitOn '.' with
    | [a, b] =>
      if (a ++ b).all (fun c => c.isDigit) ∧ ¬ (a ++ b).isEmpty then
        some ((digitsToNat a : ℚ) + (digitsToNat b : ℚ) / 10 ^ b.length)
      else none
    | _ => none

/-- Word characters `\w` (ASCII; the history lines contain only ASCII). -/
def isWordChar (c : Char) : Bool := c.isAlphanum || c = '_'

/-- Python `str.strip()`: remove leading and trailing whitespace. -/
def stripChars (cs : List Char) : List Char :=
  ((cs.dropWhile Char.isWhitespace).reverse.dropWhile Char.isWhitespace).reverse

/-- One pass of the parsing loop body shared by both scripts: strip the line,
skip it when empty, and match the session regular expression, extracting
`mode`, `session`, `dur_s = minutes*60 + seconds`, `cost`, and `commits`
(`0` when the build group is `(none)`). -/
def matchLine (line : String) : Option Session := do
  let cs := stripChars line.toList
  let (_, cs) ← takeWhile1P (fun c => !c.isWhitespace) cs
  let cs ← litP " mode=".toList cs
  let (mode, cs) ← (match cs with
    | c :: rest => if isWordChar c then some (c, rest) else none
    | [] => none)
  let cs ← litP " s=".toList cs
  let (sds, cs) ← takeWhile1P Char.isDigit cs
  let cs ← litP " dur=".toList cs
  let cs := (match cs with
    | '~' :: rest => rest
    | _ => cs)
  let (mds, cs) ← takeWhile1P Char.isDigit cs
  let cs ← litP "m".toList cs
  let secTaken := cs.takeWhile Char.isDigit
  let cs := cs.drop secTaken.length
  let cs := (match cs with
    | 's' :: rest => rest
    | _ => cs)
  let cs ← litP " cost=$".toList cs
  let (costCs, cs) ← takeWhile1P (fun c => c.isDigit || c = '.') cs
  let cost ← parseMoney costCs
  let cs ← litP " build=".toList cs
  let commits ← (match cs with
    | '(' :: rest => (litP "none)".toList rest).map (fun _ => 0)
    | c :: _ => if c.isDigit then some (digitsToNat (cs.takeWhile Char.isDigit)) else none
    | [] => none)
  some { mode := mode, session := digitsToNat sds,
         dur_s := digitsToNat mds * 60 + digitsToNat secTaken,
         cost := cost, commits := commits }

/-! ## File-backed operations

A file is modelled as `Option (List String)`: `none` when the backing file is
absent, `some lines` when present.  A Python operation that raises an uncaught
exception is modelled as `Except.error`. -/

namespace AdaptiveBudget

/-- Function `parse_sessions()` of `adaptive-budget.py`: it checks
`os.path.exists(HISTORY)` first and returns the empty list when the history
file is absent. -/
def parse_sessions (file : Option (List String)) : List Session :=
  match file with
  | none => []
  | some lines => lines.filterMap matchLine

end AdaptiveBudget

namespace RotationTuner

/-- Function `parse_sessions()` of `rotation-tuner.py`: it opens the history file with
no existence check, so an absent file raises `FileNotFoundError`. -/
def parse_sessions (file : Option (List String)) : Except String (List Session) :=
  match file with
  | none => Except.error "FileNotFoundError"
  | some lines => Except.ok (lines.filterMap matchLine)

/-- Matching `re.match` against `PATTERN=(\w+)`: the line must start with `PATTERN=`
followed by at least one word character; the group is the maximal word-char
run. -/
def matchPatternLine (line : String) : Option String :=
  if "PATTERN=".toList.isPrefixOf line.toList then
    let ws := ((line.toList).drop 8).takeWhile isWordChar
    if ws.isEmpty then none else some (String.mk ws)
  else none

/-- Function `read_current_pattern()` of `rotation-tuner.py`: opens `rotation.conf`
with no existence check (absent file raises `FileNotFoundError`); returns the
group of the first line matching `PATTERN=(\w+)`, or the default `"BBRE"`
when no line matches. -/
def read_current_pattern (file : Option (List String)) : Except String String :=
  match file with
  | none => Except.error "FileNotFoundError"
  | some lines =>
    match lines.findSome? matchPatternLine with
    | some p => Except.ok p
    | none => Except.ok "BBRE"

end RotationTuner

/-- One entry of the dictionary produced by `analyze` in `rotation-tuner.py`
(the `reason`-free numeric fields; `avg_dur_s` uses the Python no-digit
`round`, an integer). -/
structure ModeStats where
  count : ℕ
  avg_cost : ℚ
  avg_dur_s : ℤ
  avg_commits : ℚ
  cost_per_commit : ℚ
  total_cost : ℚ
deriving DecidableEq, Repr

/-- Function `analyze(sessions)` of `rotation-tuner.py`, per mode: the result dict has
a key exactly for each mode occurring in `sessions` (modelled as `Option`),
holding count, rounded averages, cost per commit with the
`max(total_commits, 1)` guard, and rounded total cost. -/
def analyzeMode (sessions : List Session) (m : Char) : Option ModeStats :=
  let typed := Moltbook.typedSessions m sessions
  if typed.length = 0 then none
  else some {
    count := typed.length
    avg_cost := roundTo 2 (costSum typed / typed.length)
    avg_dur_s := round ((durSum typed : ℚ) / typed.length)
    avg_commits := roundTo 1 ((commitsSum typed : ℚ) / typed.length)
    cost_per_commit := roundTo 2 (costSum typed / (max (commitsSum typed) 1 : ℕ))
    total_cost := roundTo 2 (costSum typed) }

/-- Access `analysis.get("X", {}).get("cost_per_commit", 99)`. -/
def getCpc (st : Option ModeStats) : ℚ :=
  match st with
  | some s => s.cost_per_commit
  | none => 99

/-- Access `analysis.get("E", {}).get("avg_cost", 99)`. -/
def getAvgCost (st : Option ModeStats) : ℚ :=
  match st with
  | some s => s.avg_cost
  | none => 99

/-- Access `analysis.get("X", {}).get("avg_commits", 0)`. -/
def getAvgCommits (st : Option ModeStats) : ℚ :=
  match st with
  | some s => s.avg_commits
  | none => 0

/-- The `e_wasteful` local of `recommend`: `e_avg_cost > 1.0 and
e.get("avg_commits", 0) == 0`. -/
def e_wasteful (analysis : Char → Option ModeStats) : Bool :=
  decide (getAvgCost (analysis 'E') > 1 ∧ getAvgCommits (analysis 'E') = 0)

/-- The `b_efficient` local of `recommend`: `b_cpc < 2.0`. -/
def b_efficient (analysis : Char → Option ModeStats) : Bool :=
  decide (getCpc (analysis 'B') < 2)

/-- The `r_productive` local of `recommend`: `r.get("avg_commits", 0) >= 1.0`. -/
def r_productive (analysis : Char → Option ModeStats) : Bool :=
  decide (getAvgCommits (analysis 'R') ≥ 1)

/-- The fields of the dict returned by `recommend` that the claims concern;
the human-readable `reason` f-string is presentational and omitted. -/
structure Recommendation where
  pattern : String
  changed : Bool
  current : String
deriving DecidableEq, Repr

/-- Function `recommend(analysis, current_pattern)` of `rotation-tuner.py`: wasteful
Engage gives `"BBBR"` (or `"BBBRE"` when Reflect is productive); otherwise an
efficient Build cheaper per commit than Reflect gives `"BBBRE"`; otherwise
`"BBRE"`.  `changed` is whether the pattern differs from the current one. -/
def recommend (analysis : Char → Option ModeStats) (current_pattern : String) :
    Recommendation :=
  let pattern :=
    if e_wasteful analysis then
      if ¬ r_productive analysis then "BBBR" else "BBBRE"
    else if b_efficient analysis ∧ getCpc (analysis 'B') < getCpc (analysis 'R') then
      "BBBRE"
    else
      "BBRE"
  { pattern := pattern,
    changed := decide (pattern ≠ current_pattern),
    current := current_pattern }

/-! ## Writing the pattern (`apply_pattern`)

`apply_pattern` reads `rotation.conf` whole, rewrites the `PATTERN=` line
(prepending the reason comment) and calls `Path.write_text` on the SAME path:
the CPython `write_text` opens the file in mode `"w"`, which truncates it, and
then writes the new content.  There is no temporary file and no rename.  An
interruption after `k` characters have been written therefore leaves the file
holding exactly the first `k` characters of the new content — the pre-existing
content was already discarded by the truncation. -/

/-- Split a character list on a separator character; like the Python
`str.split(sep)`, the empty input gives one empty piece. -/
def splitOnChar (sep : Char) (cs : List Char) : List (List Char) :=
  cs.foldr
    (fun c acc =>
      match acc with
      | [] => [[c]]
      | curr :: rest => if c = sep then [] :: curr :: rest else (c :: curr) :: rest)
    [[]]

/-- Python `str.splitlines()` for `\n`-separated text (the only line
separator occurring in `rotation.conf`): split on `\n`, with no trailing empty
piece for a trailing newline and no piece at all for the empty string. -/
def splitlinesNL (s : String) : List String :=
  if s.toList.isEmpty then []
  else
    let parts := (splitOnChar '\x0a' s.toList).map String.mk
    if s.toList.getLast? = some '\x0a' then parts.dropLast else parts

/-- The content `apply_pattern(new_pattern, reason)` writes, given the current
content of `rotation.conf`: each `PATTERN=` line is replaced by the
`# auto-tuner: <reason>` comment followed by `PATTERN=<new_pattern>`; other
lines are kept; lines are re-joined with `\n` and a final newline appended. -/
def rewriteConf (content new_pattern reason : String) : String :=
  let lines := splitlinesNL content
  let new_lines := lines.foldr
    (fun line acc =>
      (if "PATTERN=".toList.isPrefixOf line.toList then
        ["# auto-tuner: " ++ reason, "PATTERN=" ++ new_pattern]
      else [line]) ++ acc) []
  String.mk (List.intercalate ['\x0a'] (new_lines.map String.toList) ++ ['\x0a'])

/-- The first `k` characters of a string (what a write interrupted after `k`
characters leaves on disk). -/
def strTake (s : String) (k : ℕ) : String := String.mk (s.toList.take k)

/-- File content after `apply_pattern` runs to completion. -/
def apply_pattern (content new_pattern reason : String) : String :=
  rewriteConf content new_pattern reason

/-- File content after the `write_text` of `apply_pattern` fails having written
only the first `k` characters: the truncate-then-write semantics of
`Path.write_text` leaves a bare prefix of the NEW content, independent of the
pre-existing content. -/
def apply_pattern_interrupted (content new_pattern reason : String) (k : ℕ) : String :=
  strTake (rewriteConf content new_pattern reason) k

/-! ## CLI entry points

Modelled as pure functions from the two backing files to (printed value, exit
status).  `sys.exit(1)` and an uncaught exception both terminate the process
with a nonzero status; a normal return exits 0. -/

/-- Function `main()` of `adaptive-budget.py` (single-mode path, `--json` aside): an
empty parse prints the base budget and exits 0; otherwise it prints
`compute_budget` and exits 0.  The printed `%.2f` string is abstracted to the
rational it renders. -/
def budget_main (history : Option (List String)) (mode : Char) : ℚ × ℕ :=
  let sessions := AdaptiveBudget.parse_sessions history
  if sessions = [] then (BASE mode, 0)
  else (compute_budget mode sessions, 0)

/-- Function `main()` of `rotation-tuner.py` (report path, without `--apply`): an
absent history file raises (nonzero exit); fewer than 5 parsed sessions prints
a message and calls `sys.exit(1)`; an absent `rotation.conf` raises (nonzero
exit); otherwise the recommendation is printed and the exit status is 0. -/
def rotation_main (history conf : Option (List String)) : String × ℕ :=
  match RotationTuner.parse_sessions history with
  | Except.error e => (e, 1)
  | Except.ok sessions =>
    if sessions.length < 5 then
      ("Not enough session data for analysis (need 5+)", 1)
    else
      match RotationTuner.read_current_pattern conf with
      | Except.error e => (e, 1)
      | Except.ok current =>
        ((recommend (analyzeMode sessions) current).pattern, 0)

/-! ## Helper lemmas about decimal rounding -/

theorem roundTo_mono {d : ℕ} {x y : ℚ} (h : x ≤ y) : roundTo d x ≤ roundTo d y := by
  have h10 : (0 : ℚ) < 10 ^ d := by positivity
  have hr : round (x * 10 ^ d) ≤ round (y * 10 ^ d) := by
    rw [round_eq, round_eq]
    exact Int.floor_le_floor (by nlinarith)
  exact div_le_div_of_nonneg_right (by exact_mod_cast hr) h10.le

theorem roundTo_intCast (d : ℕ) (n : ℤ) : roundTo d ((n : ℚ)) = n := by
  have h10 : (10 : ℚ) ^ d ≠ 0 := by positivity
  have : ((n : ℚ)) * 10 ^ d = ((n * 10 ^ d : ℤ) : ℚ) := by push_cast; ring
  rw [roundTo, this, round_intCast]
  push_cast
  field_simp

theorem roundTo_idem (d : ℕ) (x : ℚ) : roundTo d (roundTo d x) = roundTo d x := by
  rw [roundTo, roundTo]
  have h10 : (10 : ℚ) ^ d ≠ 0 := by positivity
  rw [div_mul_cancel₀ _ h10, round_intCast]

/-- Evaluation rule for `round` on rationals, by an integer bracket. -/
theorem roundEqOf {x : ℚ} {n : ℤ} (h1 : (n : ℚ) ≤ x + 1/2)
    (h2 : x + 1/2 < (n : ℚ) + 1) : round x = n := by
  rw [round_eq]
  refine Int.floor_eq_iff.mpr ⟨h1, ?_⟩
  exact_mod_cast h2

/-- Evaluation rule for `roundTo` on rationals, by an integer bracket on the
scaled value. -/
theorem roundTo_eval {d : ℕ} {x : ℚ} {n : ℤ} (h1 : (n : ℚ) ≤ x * 10 ^ d + 1/2)
    (h2 : x * 10 ^ d + 1/2 < (n : ℚ) + 1) : roundTo d x = (n : ℚ) / 10 ^ d := by
  rw [roundTo, roundEqOf h1 h2]

/-- The map `roundTo` fixes integer-valued rationals. -/
theorem roundTo_int {d : ℕ} {x : ℚ} {n : ℤ} (h : x = (n : ℚ)) :
    roundTo d x = x := by
  rw [h, roundTo_intCast]

/-- Clamping to 2-decimal-exact bounds and then rounding to 2 decimals stays
within the bounds. -/
theorem clamp_round_mem {lo hi b : ℚ} (hle : lo ≤ hi)
    (hlo : roundTo 2 lo = lo) (hhi : roundTo 2 hi = hi) :
    lo ≤ roundTo 2 (min hi (max lo b)) ∧ roundTo 2 (min hi (max lo b)) ≤ hi := by
  constructor
  · calc lo = roundTo 2 lo := hlo.symm
      _ ≤ roundTo 2 (min hi (max lo b)) :=
        roundTo_mono (le_min hle (le_max_left _ _))
  · calc roundTo 2 (min hi (max lo b)) ≤ roundTo 2 hi :=
        roundTo_mono (min_le_left _ _)
      _ = hi := hhi

theorem base_within_caps (m : Char) :
    (CAPS m).1 ≤ BASE m ∧ BASE m ≤ (CAPS m).2 ∧ roundTo 2 (BASE m) = BASE m := by
  unfold BASE CAPS
  split_ifs <;> refine ⟨by norm_num, by norm_num, ?_⟩ <;>
    simpa using roundTo_intCast 2 _

theorem caps_facts (m : Char) :
    (CAPS m).1 ≤ (CAPS m).2 ∧ roundTo 2 (CAPS m).1 = (CAPS m).1 ∧
      roundTo 2 (CAPS m).2 = (CAPS m).2 := by
  unfold CAPS
  split_ifs <;>
    exact ⟨by norm_num, by simpa using roundTo_intCast 2 _,
      by simpa using roundTo_intCast 2 _⟩

/-! ## C1 and C4 -/

/-- C1: for every mode symbol and every parsed session history, the value
returned by `compute_budget` lies between the configured floor and ceiling for
that mode and is a 2-decimal value (fixed by rounding to 2 decimals), on every
path including the insufficient-data path that returns the base. -/
theorem compute_budget_within_caps (mode : Char) (sessions : List Session) :
    (CAPS mode).1 ≤ compute_budget mode sessions ∧
      compute_budget mode sessions ≤ (CAPS mode).2 ∧
      roundTo 2 (compute_budget mode sessions) = compute_budget mode sessions := by
  by_cases h3 : (typedSessions mode sessions).length < 3
  · have hv : compute_budget mode sessions = BASE mode := by
      simp only [compute_budget]
      rw [if_pos h3]
    rw [hv]
    exact base_within_caps mode
  · have hv : compute_budget mode sessions =
        roundTo 2 (min (CAPS mode).2 (max (CAPS mode).1
          (rawBudget mode (recentWindow (typedSessions mode sessions))))) := by
      simp only [compute_budget]
      rw [if_neg h3]
    obtain ⟨hle, hlo, hhi⟩ := caps_facts mode
    obtain ⟨h1, h2⟩ := clamp_round_mem hle hlo hhi
      (b := rawBudget mode (recentWindow (typedSessions mode sessions)))
    rw [hv]
    exact ⟨h1, h2, roundTo_idem 2 _⟩

theorem compute_budget_lt3 (mode : Char) (sessions : List Session)
    (h : (typedSessions mode sessions).length < 3) :
    compute_budget mode sessions = BASE mode := by
  simp only [compute_budget]
  rw [if_pos h]

/-- C4: whenever the history contains fewer than 3 records of the mode,
`compute_budget` returns exactly the configured base for that mode — a normal
value, not an error. -/
theorem compute_budget_insufficient (mode : Char) (sessions : List Session)
    (h : (typedSessions mode sessions).length < 3) :
    compute_budget mode sessions = BASE mode :=
  compute_budget_lt3 mode sessions h

theorem compute_budget_insufficient_witness :
    compute_budget 'R' [⟨'R', 1, 60, 2, 1⟩, ⟨'B', 2, 60, 3, 1⟩] = BASE 'R' :=
  compute_budget_insufficient 'R' _ (by decide)

/-! ## C2: the commit-producing tier bracket, stated from the wording of the spec -/

/-- Spec-side definition (from the wording of the spec, for comparison with the
code): the four-tier multiplier on the base bracketed by cost-per-commit:
`<0.6 → ×1.3`, `<1.0 → ×1.15`, `<2.0 → ×1.0`, `else → ×0.75`. -/
def specTierMultiplier (cpc : ℚ) : ℚ :=
  if cpc < 6/10 then 13/10
  else if cpc < 1 then 23/20
  else if cpc < 2 then 1
  else 3/4

/-- Spec-side definition (from the wording of the spec): the damping rule — if
`avgCost < 0.5 × base`, cap the tiered budget at `base`. -/
def specDamped (base avg b : ℚ) : ℚ :=
  if avg < (1/2) * base then min b base else b

/-- C2: for commit-producing modes (`B`, `R`) with at least 3 records, the
budget equals the formula of the spec: the tier multiplier applied to the base,
then the damping cap, then clamping to the caps and rounding to 2 decimals,
with cost-per-commit and average cost taken over the last-10 window. -/
theorem compute_budget_commit_modes (mode : Char) (sessions : List Session)
    (hm : mode = 'B' ∨ mode = 'R')
    (h3 : 3 ≤ (typedSessions mode sessions).length) :
    compute_budget mode sessions =
      roundTo 2 (min (CAPS mode).2 (max (CAPS mode).1
        (specDamped (BASE mode)
          (avgCost (recentWindow (typedSessions mode sessions)))
          (BASE mode *
            specTierMultiplier
              (costPerCommit (recentWindow (typedSessions mode sessions))))))) := by
  have h3' : ¬ (typedSessions mode sessions).length < 3 := not_lt.mpr h3
  simp only [compute_budget]
  rw [if_neg h3']
  have hraw : rawBudget mode (recentWindow (typedSessions mode sessions)) =
      specDamped (BASE mode)
        (avgCost (recentWindow (typedSessions mode sessions)))
        (BASE mode *
          specTierMultiplier
            (costPerCommit (recentWindow (typedSessions mode sessions)))) := by
    unfold rawBudget specDamped specTierMultiplier
    rw [if_pos hm]
    have hc : ((1 : ℚ)/2) * BASE mode = BASE mode * (1/2) := mul_comm _ _
    rw [hc]
    split_ifs <;> ring
  rw [hraw]

theorem compute_budget_commit_modes_witness :
    compute_budget 'B' [⟨'B', 1, 60, 1, 1⟩, ⟨'B', 2, 60, 1, 1⟩, ⟨'B', 3, 60, 1, 1⟩] =
      roundTo 2 (min (CAPS 'B').2 (max (CAPS 'B').1
        (specDamped (BASE 'B')
          (avgCost (recentWindow (typedSessions 'B'
            [⟨'B', 1, 60, 1, 1⟩, ⟨'B', 2, 60, 1, 1⟩, ⟨'B', 3, 60, 1, 1⟩])))
          (BASE 'B' *
            specTierMultiplier
              (costPerCommit (recentWindow (typedSessions 'B'
                [⟨'B', 1, 60, 1, 1⟩, ⟨'B', 2, 60, 1, 1⟩, ⟨'B', 3, 60, 1, 1⟩]))))))) :=
  compute_budget_commit_modes 'B' _ (Or.inl rfl) (by decide)

/-! ## C7: the `max(totalCommits, 1)` guard -/

/-- C7: for every window whose total commit count is 0, cost-per-commit equals
the window's total cost — exactly, for the local metric of the budget engine, and
at the output precision of the analyzer (both fields rounded to 2 decimals) for the
rotation analyzer. -/
theorem zero_commits_cpc_eq_total_cost :
    (∀ l : List Session, commitsSum l = 0 → costPerCommit l = costSum l) ∧
    (∀ (sessions : List Session) (m : Char) (st : ModeStats),
      analyzeMode sessions m = some st →
      commitsSum (typedSessions m sessions) = 0 →
      st.cost_per_commit = st.total_cost) := by
  constructor
  · intro l h
    unfold costPerCommit
    rw [h]
    norm_num
  · intro sessions m st hsome h
    unfold analyzeMode at hsome
    by_cases hlen : (typedSessions m sessions).length = 0
    · rw [if_pos hlen] at hsome
      exact absurd hsome (by simp)
    · rw [if_neg hlen] at hsome
      have hst := Option.some.inj hsome
      subst hst
      simp only [h]
      norm_num

/-- Evaluation rule for `analyzeMode` from evaluated window aggregates. -/
theorem analyzeMode_eval (sessions : List Session) (m : Char)
    (n : ℕ) (tc : ℚ) (td tk : ℕ)
    (hn : (typedSessions m sessions).length = n) (h0 : n ≠ 0)
    (hc : costSum (typedSessions m sessions) = tc)
    (hd : durSum (typedSessions m sessions) = td)
    (hk : commitsSum (typedSessions m sessions) = tk) :
    analyzeMode sessions m = some
      ⟨n, roundTo 2 (tc / n), round ((td : ℚ) / n), roundTo 1 ((tk : ℚ) / n),
        roundTo 2 (tc / (max tk 1 : ℕ)), roundTo 2 tc⟩ := by
  unfold analyzeMode
  have hne : ¬ (typedSessions m sessions).length = 0 := by
    rw [hn]; exact h0
  rw [if_neg hne]
  refine congrArg some ?_
  rw [hn, hc, hd, hk]

theorem zero_commits_cpc_eq_total_cost_witness :
    costPerCommit [⟨'E', 1, 60, 2, 0⟩] = costSum [⟨'E', 1, 60, 2, 0⟩] ∧
    (⟨1, 2, 60, 0, 2, 2⟩ : ModeStats).cost_per_commit =
      (⟨1, 2, 60, 0, 2, 2⟩ : ModeStats).total_cost := by
  have hE : analyzeMode [(⟨'E', 1, 60, 2, 0⟩ : Session)] 'E' = some ⟨1, 2, 60, 0, 2, 2⟩ := by
    have h := analyzeMode_eval [(⟨'E', 1, 60, 2, 0⟩ : Session)] 'E' 1 2 60 0
      (by decide) (by decide) (by norm_num [costSum, typedSessions])
      (by decide) (by decide)
    rw [h]
    refine congrArg some ?_
    simp only [ModeStats.mk.injEq]
    have e1 : roundTo 2 ((2 : ℚ) / ((1 : ℕ) : ℚ)) = 2 := by
      rw [show ((2 : ℚ) / ((1 : ℕ) : ℚ)) = ((2 : ℤ) : ℚ) by norm_num]
      rw [roundTo_intCast]
      try norm_num
    have e2 : round (((60 : ℕ) : ℚ) / ((1 : ℕ) : ℚ)) = 60 := by
      apply roundEqOf <;> norm_num
    have e3 : roundTo 1 (((0 : ℕ) : ℚ) / ((1 : ℕ) : ℚ)) = 0 := by
      rw [show (((0 : ℕ) : ℚ) / ((1 : ℕ) : ℚ)) = ((0 : ℤ) : ℚ) by norm_num]
      rw [roundTo_intCast]
      try norm_num
    have e4 : roundTo 2 ((2 : ℚ) / ((max 0 1 : ℕ) : ℚ)) = 2 := by
      rw [show ((2 : ℚ) / ((max 0 1 : ℕ) : ℚ)) = ((2 : ℤ) : ℚ) by norm_num]
      rw [roundTo_intCast]
      try norm_num
    have e5 : roundTo 2 (2 : ℚ) = 2 := by
      rw [show (2 : ℚ) = ((2 : ℤ) : ℚ) by norm_num, roundTo_intCast]
      try norm_num
    exact ⟨by trivial, e1, e2, e3, e4, e5⟩
  exact ⟨zero_commits_cpc_eq_total_cost.1 [⟨'E', 1, 60, 2, 0⟩] (by decide),
    zero_commits_cpc_eq_total_cost.2 [⟨'E', 1, 60, 2, 0⟩] 'E' ⟨1, 2, 60, 0, 2, 2⟩
      hE (by decide)⟩

/-! ## C5: behavior on an absent backing resource -/

/-- C5 counterexample: on an absent backing file, the load and policy read of the
rotation script do NOT return the empty sequence / the default pattern — both
raise `FileNotFoundError` (there is no existence check in
`rotation-tuner.py`). -/
theorem rotation_absent_file_raises :
    RotationTuner.parse_sessions none = Except.error "FileNotFoundError" ∧
    RotationTuner.read_current_pattern none = Except.error "FileNotFoundError" :=
  ⟨rfl, rfl⟩

/-- C5 amended: only the load of the budget script fails softly (empty list on an
absent history file); the load and policy read of the rotation script raise on an
absent file, and the default pattern `"BBRE"` is returned only when the
policy file exists but contains no `PATTERN=` line. -/
theorem absent_resource_behavior :
    AdaptiveBudget.parse_sessions none = [] ∧
    RotationTuner.parse_sessions none = Except.error "FileNotFoundError" ∧
    RotationTuner.read_current_pattern none = Except.error "FileNotFoundError" ∧
    RotationTuner.read_current_pattern (some ["# comment", "X=1"]) =
      Except.ok "BBRE" :=
  ⟨rfl, rfl, rfl, rfl⟩

/-! ## C6: atomicity of `apply_pattern` -/

/-- C6 counterexample: `apply_pattern` is not atomic.  With pre-existing
content `"PATTERN=BBRE\n"`, a write that fails after 0 characters leaves the
file empty, and one that fails after 5 characters leaves the half-written
prefix `"# aut"` — the pre-failure content is not left intact. -/
theorem apply_pattern_partial_write_loses_content :
    apply_pattern_interrupted "PATTERN=BBRE\x0a" "BBBR" "tuning" 0 = "" ∧
    apply_pattern_interrupted "PATTERN=BBRE\x0a" "BBBR" "tuning" 5 = "# aut" ∧
    apply_pattern_interrupted "PATTERN=BBRE\x0a" "BBBR" "tuning" 0 ≠
      "PATTERN=BBRE\x0a" :=
  ⟨by decide, by decide, by decide⟩

/-- C6 amended: `apply_pattern` rewrites `rotation.conf` in place via
`Path.write_text` (truncate-then-write, no temporary file, no rename): a
failure at the very start of the write empties the file whatever its previous
content was, while a completed write produces the reason comment followed by
the new `PATTERN=` line. -/
theorem apply_pattern_in_place (content new_pattern reason : String) :
    apply_pattern_interrupted content new_pattern reason 0 = "" ∧
    apply_pattern "PATTERN=BBRE\x0a" "BBBR" "tuning" =
      "# auto-tuner: tuning\x0aPATTERN=BBBR\x0a" :=
  ⟨rfl, by decide⟩

/-! ## C9: CLI exit semantics -/

/-- C9 counterexample: with available but insufficient history (fewer than 5
parsed sessions), the rotation CLI prints a message and exits with status 1,
not 0. -/
theorem rotation_insufficient_nonzero_exit :
    rotation_main (some []) (some ["PATTERN=BBRE"]) =
      ("Not enough session data for analysis (need 5+)", 1) :=
  rfl

/-- C9 amended: the budget CLI reports the base and exits 0 whenever the
parsed history holds fewer than 3 records of the mode (in particular on an
absent or empty history); the rotation CLI exits 1 whenever fewer than 5
sessions parse. -/
theorem exit_semantics (history conf : Option (List String)) (mode : Char)
    (s : List Session) :
    ((typedSessions mode (AdaptiveBudget.parse_sessions history)).length < 3 →
      budget_main history mode = (BASE mode, 0)) ∧
    (RotationTuner.parse_sessions history = Except.ok s → s.length < 5 →
      (rotation_main history conf).2 = 1) := by
  constructor
  · intro h
    unfold budget_main
    by_cases hs : AdaptiveBudget.parse_sessions history = []
    · rw [if_pos hs]
    · rw [if_neg hs, compute_budget_lt3 mode _ h]
  · intro hp hlen
    unfold rotation_main
    rw [hp]
    simp [hlen]

theorem exit_semantics_witness :
    budget_main none 'B' = (BASE 'B', 0) ∧
    (rotation_main (some []) (some [])).2 = 1 :=
  ⟨(exit_semantics none (some []) 'B' []).1 (by decide),
   (exit_semantics (some []) (some []) 'B' []).2 rfl (by decide)⟩

/-! ## C10: the recommendation pattern space -/

/-- C10: every recommended pattern is one of the three literals
`"BBBR"`, `"BBBRE"`, `"BBRE"`; hence it is non-empty with at least two Build
slots and at least one Reflect slot; and any current pattern outside that set
forces `changed = true`. -/
theorem recommend_pattern_space (analysis : Char → Option ModeStats)
    (current : String) :
    ((recommend analysis current).pattern = "BBBR" ∨
      (recommend analysis current).pattern = "BBBRE" ∨
      (recommend analysis current).pattern = "BBRE") ∧
    2 ≤ ((recommend analysis current).pattern.toList.count 'B') ∧
    1 ≤ ((recommend analysis current).pattern.toList.count 'R') ∧
    (recommend analysis current).pattern ≠ "" ∧
    (current ≠ "BBBR" → current ≠ "BBBRE" → current ≠ "BBRE" →
      (recommend analysis current).changed = true) := by
  have hp : (recommend analysis current).pattern = "BBBR" ∨
      (recommend analysis current).pattern = "BBBRE" ∨
      (recommend analysis current).pattern = "BBRE" := by
    unfold recommend
    split_ifs <;> simp
  have hc : (recommend analysis current).changed =
      decide ((recommend analysis current).pattern ≠ current) := by
    unfold recommend
    split_ifs <;> rfl
  refine ⟨hp, ?_, ?_, ?_, ?_⟩
  · rcases hp with h | h | h <;> rw [h] <;> decide
  · rcases hp with h | h | h <;> rw [h] <;> decide
  · rcases hp with h | h | h <;> rw [h] <;> decide
  · intro h1 h2 h3
    rcases hp with h | h | h
    · rw [hc, h]; exact decide_eq_true fun heq => h1 heq.symm
    · rw [hc, h]; exact decide_eq_true fun heq => h2 heq.symm
    · rw [hc, h]; exact decide_eq_true fun heq => h3 heq.symm

theorem recommend_pattern_space_witness :
    (recommend (fun _ => none) "XYZ").changed = true :=
  (recommend_pattern_space (fun _ => none) "XYZ").2.2.2.2
    (by decide) (by decide) (by decide)

/-! ## C8: Scenario B of the spec -/

/-- Input of the claim: 10 Engage records, `cost=6.00` each. -/
def scenarioB : List Session := List.replicate 10 ⟨'E', 1, 600, 6, 0⟩

theorem scenarioB_eval :
    avgCost scenarioB = 6 ∧ rawBudget 'E' scenarioB = 11/2 ∧
      compute_budget 'E' scenarioB = 5 := by
  have hbase : BASE 'E' = 5 := rfl
  have havg : avgCost scenarioB = 6 := by
    norm_num [avgCost, costSum, scenarioB, List.map_replicate,
      List.sum_replicate, nsmul_eq_mul]
  have hraw : rawBudget 'E' scenarioB = 11/2 := by
    simp only [rawBudget]
    rw [if_neg (by decide : ¬('E' = 'B' ∨ 'E' = 'R'))]
    rw [havg, hbase]
    rw [if_neg (by norm_num), if_pos (by norm_num)]
    norm_num
  refine ⟨havg, hraw, ?_⟩
  simp only [compute_budget]
  rw [show typedSessions 'E' scenarioB = scenarioB from rfl]
  rw [if_neg (by decide : ¬(scenarioB.length < 3))]
  rw [show recentWindow scenarioB = scenarioB from rfl, hraw]
  have hclamp : min (CAPS 'E').2 (max (CAPS 'E').1 (11/2 : ℚ)) = 5 := by
    rw [show CAPS 'E' = ((2 : ℚ), (5 : ℚ)) from rfl]
    rw [max_eq_right (by norm_num : (2 : ℚ) ≤ 11/2)]
    exact min_eq_left (by norm_num)
  rw [hclamp]
  exact roundTo_int (n := 5) (by norm_num)

/-- C8 counterexample: on exactly the input of the claim (10 Engage records with
cost 6.00, base 5) the budget is NOT 5.50: the Engage caps are `(2.0, 5.0)`,
not the claimed `[3, 7]`, so the raw 5.5 is clamped to the ceiling 5.0. -/
theorem scenarioB_not_five_fifty : compute_budget 'E' scenarioB ≠ 11/2 := by
  rw [scenarioB_eval.2.2]
  norm_num

/-- C8 amended: with 10 Engage records of cost 6.00 each and base 5, the
engine takes the `avgCost > 0.9×base` branch (6 > 4.5), applies multiplier
1.1 giving a raw 5.5, and clamps to the Engage ceiling 5.0: the result is
exactly 5.00. -/
theorem scenarioB_budget :
    avgCost scenarioB = 6 ∧ rawBudget 'E' scenarioB = BASE 'E' * (11/10) ∧
      compute_budget 'E' scenarioB = 5 := by
  refine ⟨scenarioB_eval.1, ?_, scenarioB_eval.2.2⟩
  rw [scenarioB_eval.2.1, show BASE 'E' = (5 : ℚ) from rfl]
  norm_num

/-! ## C3: the wastefulness rule -/

/-- A history on which the wastefulness rule fires although the total Engage
commits are nonzero: 30 Engage sessions of cost 2.00 with one single commit
among them (`avg_commits = round(1/30, 1) = 0.0`). -/
def wastefulHistory : List Session :=
  List.replicate 29 ⟨'E', 1, 60, 2, 0⟩ ++ [⟨'E', 30, 60, 2, 1⟩]

theorem wastefulHistory_stats :
    analyzeMode wastefulHistory 'E' = some ⟨30, 2, 60, 0, 60, 60⟩ := by
  have ht : typedSessions 'E' wastefulHistory = wastefulHistory := rfl
  have hc : costSum (typedSessions 'E' wastefulHistory) = 60 := by
    rw [ht]
    norm_num [costSum, wastefulHistory, List.map_append, List.map_replicate,
      List.sum_append, List.sum_replicate, nsmul_eq_mul]
  have h := analyzeMode_eval wastefulHistory 'E' 30 60 1800 1
    (by decide) (by decide) hc (by decide) (by decide)
  rw [h]
  refine congrArg some ?_
  simp only [ModeStats.mk.injEq]
  have e1 : roundTo 2 ((60 : ℚ) / ((30 : ℕ) : ℚ)) = 2 := by
    rw [show ((60 : ℚ) / ((30 : ℕ) : ℚ)) = ((2 : ℤ) : ℚ) by norm_num]
    rw [roundTo_intCast]
    try norm_num
  have e2 : round (((1800 : ℕ) : ℚ) / ((30 : ℕ) : ℚ)) = 60 := by
    apply roundEqOf <;> norm_num
  have e3 : roundTo 1 (((1 : ℕ) : ℚ) / ((30 : ℕ) : ℚ)) = 0 := by
    rw [show (((1 : ℕ) : ℚ) / ((30 : ℕ) : ℚ)) = (1/30 : ℚ) by norm_num]
    rw [roundTo_eval (d := 1) (x := (1/30 : ℚ)) (n := 0) (by norm_num) (by norm_num)]
    norm_num
  have e4 : roundTo 2 ((60 : ℚ) / ((max 1 1 : ℕ) : ℚ)) = 60 := by
    rw [show ((60 : ℚ) / ((max 1 1 : ℕ) : ℚ)) = ((60 : ℤ) : ℚ) by norm_num]
    rw [roundTo_intCast]
    try norm_num
  have e5 : roundTo 2 (60 : ℚ) = 60 := by
    rw [show (60 : ℚ) = ((60 : ℤ) : ℚ) by norm_num, roundTo_intCast]
    try norm_num
  exact ⟨by trivial, e1, e2, e3, e4, e5⟩

theorem wastefulHistory_noR : analyzeMode wastefulHistory 'R' = none := by
  unfold analyzeMode
  rw [if_pos (by decide)]

theorem wasteful_fires : e_wasteful (analyzeMode wastefulHistory) = true := by
  unfold e_wasteful
  rw [wastefulHistory_stats]
  apply decide_eq_true
  exact ⟨by norm_num [getAvgCost], by norm_num [getAvgCommits]⟩

theorem wasteful_r_unproductive :
    r_productive (analyzeMode wastefulHistory) = false := by
  unfold r_productive
  rw [wastefulHistory_noR]
  apply decide_eq_false
  norm_num [getAvgCommits]

/-- C3 counterexample: the first rule does NOT fire exactly when the total Engage
commits equal 0 — on `wastefulHistory` (avg cost 2.00 > 1, total
Engage commits = 1 ≠ 0, average commits rounding to 0.0) the rule fires and
the recommendation drops Engage. -/
theorem wasteful_rule_fires_with_nonzero_commits :
    e_wasteful (analyzeMode wastefulHistory) = true ∧
    commitsSum (typedSessions 'E' wastefulHistory) = 1 ∧
    (recommend (analyzeMode wastefulHistory) "BBRE").pattern = "BBBR" := by
  refine ⟨wasteful_fires, by decide, ?_⟩
  simp [recommend, wasteful_fires, wasteful_r_unproductive]

/-- C3 amended: the rule fires exactly when the Engage average cost as computed
(rounded to 2 decimals; 99 when Engage is absent) exceeds 1.0 and the Engage
AVERAGE commits rounded to 1 decimal equal 0 (not: total commits equal 0 —
zero total commits implies the condition but a small positive average that
rounds to 0.0 also fires); when it fires, the pattern raises Build to three
slots, dropping Engage exactly when Reflect is not productive. -/
theorem engage_wasteful_rule (sessions : List Session) (current : String)
    (hE : (typedSessions 'E' sessions).length ≠ 0) :
    (e_wasteful (analyzeMode sessions) = true ↔
      (1 < roundTo 2 (costSum (typedSessions 'E' sessions) /
          (typedSessions 'E' sessions).length) ∧
        roundTo 1 ((commitsSum (typedSessions 'E' sessions) : ℚ) /
          (typedSessions 'E' sessions).length) = 0)) ∧
    (e_wasteful (analyzeMode sessions) = true →
      (recommend (analyzeMode sessions) current).pattern =
        (if r_productive (analyzeMode sessions) then "BBBRE" else "BBBR")) ∧
    (commitsSum (typedSessions 'E' sessions) = 0 →
      roundTo 1 ((commitsSum (typedSessions 'E' sessions) : ℚ) /
        (typedSessions 'E' sessions).length) = 0) := by
  have hS := analyzeMode_eval sessions 'E' _ _ _ _ rfl hE rfl rfl rfl
  refine ⟨?_, ?_, ?_⟩
  · unfold e_wasteful
    rw [hS]
    simp only [getAvgCost, getAvgCommits, decide_eq_true_eq]
  · intro hw
    cases hr : r_productive (analyzeMode sessions)
    · simp [recommend, hw, hr]
    · simp [recommend, hw, hr]
  · intro h0
    rw [h0]
    have hz : ((0 : ℕ) : ℚ) / ((typedSessions 'E' sessions).length : ℚ) = 0 := by
      norm_num
    rw [hz]
    exact roundTo_int (n := 0) (by norm_num)

theorem engage_wasteful_rule_witness :
    roundTo 1 ((commitsSum (typedSessions 'E' [⟨'E', 1, 60, 2, 0⟩]) : ℚ) /
      (typedSessions 'E' [⟨'E', 1, 60, 2, 0⟩]).length) = 0 :=
  (engage_wasteful_rule [⟨'E', 1, 60, 2, 0⟩] "BBRE" (by decide)).2.2 (by decide)

end Moltbook
